import Mathlib

/-!
Verification of the `ssanchors` source-separation anchor generator.

The Python source is shallowly embedded: audio samples are modelled as
rational numbers (the float arithmetic of the source is modelled exactly over
`ℚ`), an `untwist` `Wave` becomes a structure holding its samples (a list of
sample frames, each a list of channel values) together with a sample rate,
and a spectrogram becomes a structure holding its three dimensions and an
indexing function.  Randomness (`np.random.choice`) is made explicit: each
stage that samples indices receives the sampled index list as an argument,
and the validity conditions under which `np.random.choice` succeeds are
modelled by an `Option` result.  External `untwist` services (STFT/ISTFT,
the loudness meter) are not part of this repository; they appear as explicit
function parameters, with their contracts taken from the specification.
-/

namespace SSAnchors

/-- Peak `np.max(np.abs(audio))` of one buffer, modelled over its flattened
sample list.  For a nonempty buffer this is exactly the maximum absolute
sample value (all `|x|` are nonnegative, so the `0` seed is harmless). -/
def audioPeak (a : List ℚ) : ℚ :=
  a.foldl (fun m x => max m |x|) 0

/-- True pre-processing peak of a batch: `max(|sample|)` over all buffers. -/
def batchPeak (l : List (List ℚ)) : ℚ :=
  l.foldl (fun m a => max m (audioPeak a)) 0

/-- Embedding of `ssanchors.utilities.ensure_audio_doesnt_clip`
(src/ssanchors/utilities.py lines 105-123): `max_peak` starts at `1`, is
replaced by each buffer peak that strictly exceeds it, and if the final
`max_peak >= 1` every buffer is scaled by `0.999 / max_peak`, else the list
is returned unchanged. -/
def ensure_audio_doesnt_clip (l : List (List ℚ)) : List (List ℚ) :=
  let max_peak := l.foldl (fun m a => if m < audioPeak a then audioPeak a else m) 1
  if 1 ≤ max_peak then
    l.map (fun a => a.map (fun x => x * (999/1000 / max_peak)))
  else
    l

lemma foldl_if_eq_foldl_max (l : List ℚ) (i : ℚ) :
    l.foldl (fun m x => if m < x then x else m) i = l.foldl max i := by
  induction l generalizing i with
  | nil => rfl
  | cons x t ih =>
      simp only [List.foldl_cons]
      rw [ih]
      congr 1
      rcases lt_or_le i x with h | h
      · simp [h, max_eq_right h.le]
      · simp [not_lt.2 h, max_eq_left h]

lemma foldl_max_max (l : List ℚ) (i j : ℚ) :
    l.foldl max (max i j) = max i (l.foldl max j) := by
  induction l generalizing j with
  | nil => rfl
  | cons x t ih =>
      simp only [List.foldl_cons]
      rw [max_assoc, ih]

lemma init_le_foldl_max (l : List ℚ) (i : ℚ) : i ≤ l.foldl max i := by
  induction l generalizing i with
  | nil => exact le_refl i
  | cons x t ih =>
      simp only [List.foldl_cons]
      exact le_trans (le_max_left i x) (ih (max i x))

lemma le_foldl_max_of_mem {l : List ℚ} {x : ℚ} (hx : x ∈ l) (i : ℚ) :
    x ≤ l.foldl max i := by
  induction l generalizing i with
  | nil => cases hx
  | cons y t ih =>
      simp only [List.foldl_cons]
      rcases List.mem_cons.1 hx with h | h
      · subst h
        exact le_trans (le_max_right i x) (init_le_foldl_max t (max i x))
      · exact ih h (max i y)

lemma audioPeak_fold_scale (g : ℚ) (a : List ℚ) : ∀ i : ℚ,
    (a.map (fun x => x * g)).foldl (fun m x => max m |x|) (i * |g|) =
      (a.foldl (fun m x => max m |x|) i) * |g| := by
  induction a with
  | nil => intro i; rfl
  | cons x t ih =>
      intro i
      simp only [List.map_cons, List.foldl_cons]
      rw [abs_mul, ← max_mul_of_nonneg i |x| (abs_nonneg g), ih]

lemma audioPeak_scale (g : ℚ) (a : List ℚ) :
    audioPeak (a.map (fun x => x * g)) = audioPeak a * |g| := by
  unfold audioPeak
  have := audioPeak_fold_scale g a 0
  rwa [zero_mul] at this

lemma batchPeak_eq_foldl_map (l : List (List ℚ)) :
    batchPeak l = (l.map audioPeak).foldl max 0 := by
  unfold batchPeak
  rw [List.foldl_map]

lemma audioPeak_le_batchPeak {l : List (List ℚ)} {a : List ℚ} (ha : a ∈ l) :
    audioPeak a ≤ batchPeak l := by
  rw [batchPeak_eq_foldl_map]
  exact le_foldl_max_of_mem (List.mem_map_of_mem audioPeak ha) 0

lemma codeMaxPeak_eq (l : List (List ℚ)) :
    l.foldl (fun m a => if m < audioPeak a then audioPeak a else m) 1 =
      max 1 (batchPeak l) := by
  have h1 : l.foldl (fun m a => if m < audioPeak a then audioPeak a else m) 1 =
      (l.map audioPeak).foldl (fun m x => if m < x then x else m) 1 := by
    rw [List.foldl_map]
  rw [h1, foldl_if_eq_foldl_max, batchPeak_eq_foldl_map]
  have h2 : (1 : ℚ) = max 1 0 := by norm_num
  calc (l.map audioPeak).foldl max 1
      = (l.map audioPeak).foldl max (max 1 0) := by rw [← h2]
    _ = max 1 ((l.map audioPeak).foldl max 0) := foldl_max_max _ 1 0

/-- Claim C1: the claim states that a batch whose pre-processing peak is
strictly below 1.0 is returned unchanged by the clip guard.  The code
initialises `max_peak` to `1` and tests `max_peak >= 1`, so the scaling
branch is always taken: the single buffer `[1/2]` (peak 1/2 < 1) comes back
scaled by `0.999`, not unchanged. -/
theorem clip_guard_scales_batch_below_one :
    ensure_audio_doesnt_clip [[(1/2 : ℚ)]] = [[(999/2000 : ℚ)]] ∧
      ((999/2000 : ℚ) ≠ (1/2 : ℚ)) := by
  constructor
  · have h : |(1/2 : ℚ)| = 1/2 := abs_of_nonneg (by norm_num)
    norm_num [ensure_audio_doesnt_clip, audioPeak, h]
  · norm_num

/-- Claim C2: if the pre-processing peak `p = batchPeak l` satisfies
`p ≥ 1`, the clip guard scales every buffer by the same gain `0.999 / p`
(hence relative amplitude ratios across buffers are preserved), and after
processing every buffer's peak is at most `0.999`. -/
theorem clip_guard_attenuates (l : List (List ℚ)) (hp : 1 ≤ batchPeak l) :
    ensure_audio_doesnt_clip l =
        l.map (fun a => a.map (fun x => x * (999/1000 / batchPeak l))) ∧
      ∀ a ∈ ensure_audio_doesnt_clip l, audioPeak a ≤ 999/1000 := by
  have hpos : 0 < batchPeak l := lt_of_lt_of_le one_pos hp
  have hmax : l.foldl (fun m a => if m < audioPeak a then audioPeak a else m) 1 =
      batchPeak l := by
    rw [codeMaxPeak_eq]
    exact max_eq_right hp
  have hbranch : ensure_audio_doesnt_clip l =
      l.map (fun a => a.map (fun x => x * (999/1000 / batchPeak l))) := by
    unfold ensure_audio_doesnt_clip
    rw [hmax, if_pos hp]
  refine ⟨hbranch, ?_⟩
  intro a ha
  rw [hbranch] at ha
  rcases List.mem_map.1 ha with ⟨b, hb, rfl⟩
  rw [audioPeak_scale]
  have hg : |999/1000 / batchPeak l| = 999/1000 / batchPeak l := by
    rw [abs_of_nonneg]
    positivity
  rw [hg]
  have hble : audioPeak b ≤ batchPeak l := audioPeak_le_batchPeak hb
  calc audioPeak b * (999/1000 / batchPeak l)
      ≤ batchPeak l * (999/1000 / batchPeak l) := by
        apply mul_le_mul_of_nonneg_right hble
        positivity
    _ = 999/1000 := by
        field_simp
        ring

/-- Witness for C2 at the batch `[[2]]` (peak 2 ≥ 1). -/
theorem clip_guard_attenuates_witness :
    1 ≤ batchPeak [[(2 : ℚ)]] ∧
      (ensure_audio_doesnt_clip [[(2 : ℚ)]] =
          [[(2 : ℚ)]].map
            (fun a => a.map (fun x => x * (999/1000 / batchPeak [[(2 : ℚ)]]))) ∧
        ∀ a ∈ ensure_audio_doesnt_clip [[(2 : ℚ)]], audioPeak a ≤ 999/1000) :=
  ⟨by norm_num [batchPeak, audioPeak],
    clip_guard_attenuates [[(2 : ℚ)]] (by norm_num [batchPeak, audioPeak])⟩

/-- A spectrogram as produced by `untwist`'s STFT: a three-dimensional array
indexed by `(frequency_bin, time_frame, channel)`.  The entry type is kept
abstract (the source holds complex values); the degradation operators only
need a zero element. -/
structure Spectrogram (α : Type) where
  numBins : ℕ
  numFrames : ℕ
  numChannels : ℕ
  data : ℕ → ℕ → ℕ → α

/-- Python's `int()` applied to a (here: exactly represented) float:
truncation toward zero. -/
def pyInt (q : ℚ) : ℤ :=
  if 0 ≤ q then ⌊q⌋ else ⌈q⌉

/-- The dropout count `int(available * distortion_factor)` computed at
src/ssanchors/anchors.py line 84 (frames) and line 150 (flattened bins). -/
def num_to_remove (n : ℕ) (f : ℚ) : ℤ :=
  pyInt ((n : ℚ) * f)

/-- `x_fft[:, idx] = 0` (src/ssanchors/anchors.py line 90): zero every bin
and channel at the time frames listed in `idx`. -/
def zeroFrames {α : Type} [Zero α] (s : Spectrogram α) (idx : List ℕ) :
    Spectrogram α :=
  { s with data := fun b fr c => if fr ∈ idx then 0 else s.data b fr c }

/-- Frame-dropout stage of `distorted_target` (src/ssanchors/anchors.py
lines 82-90).  The index list sampled by `np.random.choice` is passed in
explicitly; the stage returns `none` exactly when `np.random.choice` would
raise, i.e. when the requested count is negative or exceeds the number of
frames.  `distortion_factor = None` skips the stage. -/
def frameDropoutStage {α : Type} [Zero α] (s : Spectrogram α)
    (factor : Option ℚ) (idx : List ℕ) : Option (Spectrogram α) :=
  match factor with
  | none => some s
  | some f =>
      let k := num_to_remove s.numFrames f
      if 0 ≤ k ∧ k ≤ (s.numFrames : ℤ) then some (zeroFrames s idx) else none

/-- `x_fft.size`: total number of cells of the spectrogram volume. -/
def size {α : Type} (s : Spectrogram α) : ℕ :=
  s.numBins * s.numFrames * s.numChannels

/-- `np.unravel_index(i, x_fft.shape)` for shape
`(numBins, numFrames, numChannels)` in C order. -/
def unravelIndex {α : Type} (s : Spectrogram α) (i : ℕ) : ℕ × ℕ × ℕ :=
  (i / (s.numFrames * s.numChannels),
    i % (s.numFrames * s.numChannels) / s.numChannels,
    i % s.numChannels)

/-- `x_fft[freq, time, channel] = 0` for a list of cell coordinates
(src/ssanchors/anchors.py line 154). -/
def zeroCells {α : Type} [Zero α] (s : Spectrogram α)
    (cells : List (ℕ × ℕ × ℕ)) : Spectrogram α :=
  { s with data := fun b fr c => if (b, fr, c) ∈ cells then 0 else s.data b fr c }

/-- Bin-dropout stage of `musical_noise` (src/ssanchors/anchors.py lines
146-154): sample `int(size * factor)` flattened indices without replacement,
unravel them, zero those cells.  As with `frameDropoutStage`, the sampled
flat index list is explicit and `none` models the `ValueError` raised inside
`np.random.choice`. -/
def binDropoutStage {α : Type} [Zero α] (s : Spectrogram α) (f : ℚ)
    (idx : List ℕ) : Option (Spectrogram α) :=
  let k := num_to_remove (size s) f
  if 0 ≤ k ∧ k ≤ (size s : ℤ) then
    some (zeroCells s (idx.map (unravelIndex s)))
  else
    none

/-- Modelled from the spec: `untwist.utilities.conversion.nearest_bin` is
not part of this repository; the spec describes it as converting a cutoff
frequency in Hz to the nearest frequency-bin index, round-to-nearest using
the sample rate and `num_points`. -/
def nearest_bin (freq : ℚ) (numPoints : ℕ) (sampleRate : ℚ) : ℤ :=
  round (freq * (numPoints : ℚ) / sampleRate)

/-- Lowpass stage (src/ssanchors/anchors.py lines 92-96 and 156-160):
`x_fft[cutoff:] = 0` zeroes all frequency bins from the computed cutoff
index upward; `lowpass_cutoff = None` skips the stage. -/
def lowpassStage {α : Type} [Zero α] (numPoints : ℕ) (sampleRate : ℚ)
    (s : Spectrogram α) (cutoff : Option ℚ) : Spectrogram α :=
  match cutoff with
  | none => s
  | some fc =>
      { s with data := fun b fr c =>
          if nearest_bin fc numPoints sampleRate ≤ (b : ℤ) then 0
          else s.data b fr c }

/-- Concrete 1 x 49 x 1 spectrogram with all entries 1, for counterexamples. -/
def s49ex : Spectrogram ℤ := ⟨1, 49, 1, fun _ _ _ => 1⟩

/-- Concrete 1 x 2 x 1 spectrogram with all entries 1, for counterexamples. -/
def s2ex : Spectrogram ℤ := ⟨1, 2, 1, fun _ _ _ => 1⟩

/-- Concrete 1 x 5 x 1 spectrogram with all entries 1, for witnesses. -/
def s5ex : Spectrogram ℤ := ⟨1, 5, 1, fun _ _ _ => 1⟩

lemma pyInt_of_nonneg {q : ℚ} (h : 0 ≤ q) : pyInt q = ⌊q⌋ := if_pos h

/-- Counterexample to claim C3 as stated: the code computes the dropout
count with `int()` (truncation), not `round()`.  At 49 frames and
`distortion_factor = 0.2` the code removes `int(9.8) = 9` frames while the
claim's `round(9.8) = 10`; zeroing a 9-element index set leaves exactly 9
zeroed frames. -/
theorem frame_dropout_count_not_round :
    num_to_remove 49 (1/5) = 9 ∧ round ((49 : ℚ) * (1/5)) = 10 ∧
      ((Finset.range 49).filter
          (fun fr => (zeroFrames s49ex [0, 1, 2, 3, 4, 5, 6, 7, 8]).data 0 fr 0
            = 0)).card = 9 := by
  refine ⟨?_, ?_, ?_⟩
  · rw [num_to_remove, pyInt_of_nonneg (by norm_num)]
    norm_num
  · rw [round_eq]
    norm_num
  · decide

/-- Claim C3 (amended): for `distortion_factor` in `[0,1)` and an index
list satisfying the `np.random.choice` contract (length
`int(num_frames * factor)`, distinct, in range), the frame-dropout stage
succeeds, zeroes every bin and channel at exactly those frames (a set of
exactly `int(num_frames * factor)` distinct frame indices), leaves all other
frames unmodified; with factor `0.2` and 50 frames exactly 10 frames are
zeroed; `distortion_factor = None` skips the operator entirely. -/
theorem frame_dropout_spec {α : Type} [Zero α] (s : Spectrogram α) (f : ℚ)
    (idx : List ℕ) (h0 : 0 ≤ f) (h1 : f < 1)
    (hlen : idx.length = (num_to_remove s.numFrames f).toNat)
    (hnd : idx.Nodup) (hbd : ∀ i ∈ idx, i < s.numFrames) :
    frameDropoutStage s (some f) idx = some (zeroFrames s idx)
    ∧ (∀ b fr c, fr ∈ idx → (zeroFrames s idx).data b fr c = 0)
    ∧ (∀ b fr c, fr ∉ idx → (zeroFrames s idx).data b fr c = s.data b fr c)
    ∧ ((Finset.range s.numFrames).filter (fun fr => fr ∈ idx)).card
        = (num_to_remove s.numFrames f).toNat
    ∧ (s.numFrames = 50 → f = 1/5 → idx.length = 10)
    ∧ (∀ idx2, frameDropoutStage s none idx2 = some s) := by
  have hk0 : 0 ≤ num_to_remove s.numFrames f := by
    rw [num_to_remove, pyInt_of_nonneg (mul_nonneg (Nat.cast_nonneg _) h0)]
    exact Int.floor_nonneg.2 (mul_nonneg (Nat.cast_nonneg _) h0)
  have hkn : num_to_remove s.numFrames f ≤ (s.numFrames : ℤ) := by
    rw [num_to_remove, pyInt_of_nonneg (mul_nonneg (Nat.cast_nonneg _) h0)]
    have hle : (s.numFrames : ℚ) * f ≤ (s.numFrames : ℚ) := by
      calc (s.numFrames : ℚ) * f ≤ (s.numFrames : ℚ) * 1 :=
            mul_le_mul_of_nonneg_left h1.le (Nat.cast_nonneg _)
        _ = (s.numFrames : ℚ) := mul_one _
    calc ⌊(s.numFrames : ℚ) * f⌋ ≤ ⌊(s.numFrames : ℚ)⌋ := Int.floor_le_floor hle
      _ = (s.numFrames : ℤ) := Int.floor_natCast _
  refine ⟨?_, ?_, ?_, ?_, ?_, ?_⟩
  · rw [frameDropoutStage]
    exact if_pos ⟨hk0, hkn⟩
  · intro b fr c hfr
    simp [zeroFrames, hfr]
  · intro b fr c hfr
    simp [zeroFrames, hfr]
  · have hfe : (Finset.range s.numFrames).filter (fun fr => fr ∈ idx)
        = idx.toFinset := by
      ext a
      simp only [Finset.mem_filter, Finset.mem_range, List.mem_toFinset]
      exact ⟨fun h => h.2, fun h => ⟨hbd a h, h⟩⟩
    rw [hfe, List.toFinset_card_of_nodup hnd, hlen]
  · intro h50 hf
    rw [hlen, h50, hf, num_to_remove, pyInt_of_nonneg (by norm_num)]
    norm_num
    decide
  · intro idx2
    rfl

/-- Witness for C3 (amended) at a 5-frame spectrogram with factor `1/5`
and sampled index list `[2]`. -/
theorem frame_dropout_spec_witness :
    (0 : ℚ) ≤ 1/5 ∧ (1/5 : ℚ) < 1 ∧
      [2].length = (num_to_remove s5ex.numFrames (1/5)).toNat ∧
      (frameDropoutStage s5ex (some (1/5)) [2] = some (zeroFrames s5ex [2])
        ∧ (∀ b fr c, fr ∈ [2] → (zeroFrames s5ex [2]).data b fr c = 0)
        ∧ (∀ b fr c, fr ∉ [2] → (zeroFrames s5ex [2]).data b fr c
            = s5ex.data b fr c)
        ∧ ((Finset.range s5ex.numFrames).filter (fun fr => fr ∈ [2])).card
            = (num_to_remove s5ex.numFrames (1/5)).toNat
        ∧ (s5ex.numFrames = 50 → (1/5 : ℚ) = 1/5 → [2].length = 10)
        ∧ (∀ idx2, frameDropoutStage s5ex none idx2 = some s5ex)) :=
  ⟨by norm_num, by norm_num,
    by
      show [2].length = (num_to_remove 5 (1/5)).toNat
      rw [num_to_remove, pyInt_of_nonneg (by norm_num)]
      norm_num,
    frame_dropout_spec s5ex (1/5) [2] (by norm_num) (by norm_num)
      (by
        show [2].length = (num_to_remove 5 (1/5)).toNat
        rw [num_to_remove, pyInt_of_nonneg (by norm_num)]
        norm_num)
      (by decide) (by decide)⟩

lemma ite_sampling_none {β : Type} (k n : ℤ) (x : β) :
    ((if 0 ≤ k ∧ k ≤ n then some x else none) = none ↔ (k < 0 ∨ n < k)) := by
  by_cases h : 0 ≤ k ∧ k ≤ n
  · rw [if_pos h]
    constructor
    · intro hx
      exact absurd hx (by simp)
    · intro hx
      exact absurd hx (by omega)
  · rw [if_neg h]
    push_neg at h
    constructor
    · intro _
      omega
    · intro _
      rfl

lemma ite_sampling_some {β : Type} (k n : ℤ) (x : β)
    (h : ¬(k < 0 ∨ n < k)) :
    (if 0 ≤ k ∧ k ≤ n then some x else none) = some x := by
  rw [if_pos]
  omega

/-- Counterexample to claim C5 as stated: `distortion_factor` values outside
`[0,1)` are not rejected.  With 2 frames, factor `1.0` yields count
`int(2.0) = 2 ≤ 2` and `np.random.choice` succeeds (zeroing both frames),
and factor `-0.1` yields count `int(-0.2) = 0` and succeeds as a no-op
sample; neither call errors, before sampling or at all. -/
theorem dropout_accepts_factor_outside_range :
    (frameDropoutStage s2ex (some 1) [0, 1]).isSome = true ∧
      (frameDropoutStage s2ex (some (-1/10)) []).isSome = true := by
  constructor
  · have hk : num_to_remove s2ex.numFrames 1 = 2 := by
      show num_to_remove 2 1 = 2
      rw [num_to_remove, pyInt_of_nonneg (by norm_num)]
      norm_num
    rw [frameDropoutStage, hk]
    rfl
  · have hk : num_to_remove s2ex.numFrames (-1/10) = 0 := by
      show num_to_remove 2 (-1/10) = 0
      rw [num_to_remove, pyInt]
      rw [if_neg (by norm_num)]
      rw [show ((2 : ℕ) : ℚ) * (-1/10) = -1/5 by norm_num]
      rw [Int.ceil_eq_iff]
      norm_num
    rw [frameDropoutStage, hk]
    rfl

/-- Claim C5 (amended): neither dropout operator validates its parameters
before sampling; the only rejection happens inside the sampling call itself
(`np.random.choice`), which errors exactly when the computed count
`int(available * factor)` is negative or exceeds the available frames/bins.
When the count is in range the stage succeeds and zeroes the sampled
indices (never clamping the count); in particular factors outside `[0,1)`
whose truncated count is still in range (e.g. exactly 1.0) are accepted. -/
theorem dropout_rejects_only_inside_sampling {α : Type} [Zero α]
    (s : Spectrogram α) (f : ℚ) (idx : List ℕ) :
    (frameDropoutStage s (some f) idx = none ↔
        (num_to_remove s.numFrames f < 0 ∨
          (s.numFrames : ℤ) < num_to_remove s.numFrames f))
    ∧ (¬(num_to_remove s.numFrames f < 0 ∨
          (s.numFrames : ℤ) < num_to_remove s.numFrames f) →
        frameDropoutStage s (some f) idx = some (zeroFrames s idx))
    ∧ (binDropoutStage s f idx = none ↔
        (num_to_remove (size s) f < 0 ∨
          (size s : ℤ) < num_to_remove (size s) f))
    ∧ (¬(num_to_remove (size s) f < 0 ∨
          (size s : ℤ) < num_to_remove (size s) f) →
        binDropoutStage s f idx = some (zeroCells s (idx.map (unravelIndex s)))) := by
  refine ⟨?_, ?_, ?_, ?_⟩
  · rw [frameDropoutStage]
    exact ite_sampling_none _ _ _
  · intro h
    rw [frameDropoutStage]
    exact ite_sampling_some _ _ _ h
  · rw [binDropoutStage]
    exact ite_sampling_none _ _ _
  · intro h
    rw [binDropoutStage]
    exact ite_sampling_some _ _ _ h

/-- Witness for C5 (amended) at a 2-frame spectrogram with factor `3` (count
`int(6) = 6 > 2`, so the frame stage errors inside the sampling call). -/
theorem dropout_rejects_only_inside_sampling_witness :
    (num_to_remove s2ex.numFrames 3 < 0 ∨
        (s2ex.numFrames : ℤ) < num_to_remove s2ex.numFrames 3) ∧
      frameDropoutStage s2ex (some 3) [] = none :=
  have hk : num_to_remove s2ex.numFrames 3 = 6 := by
    show num_to_remove 2 3 = 6
    rw [num_to_remove, pyInt_of_nonneg (by norm_num)]
    norm_num
  have hcond : num_to_remove s2ex.numFrames 3 < 0 ∨
      (s2ex.numFrames : ℤ) < num_to_remove s2ex.numFrames 3 := by
    rw [hk]
    right
    show ((2 : ℕ) : ℤ) < 6
    norm_num
  ⟨hcond,
    ((dropout_rejects_only_inside_sampling s2ex 3 []).1).2 hcond⟩

/-- Claim C8: the lowpass mask zeroes every frequency bin at or above the
cutoff bin index (in every time frame and channel), leaves every bin below
the index unmodified, the index is the round-to-nearest conversion of the
cutoff frequency via sample rate and `num_points`, and `cutoff = None`
leaves the spectrogram unmodified. -/
theorem lowpass_mask_spec {α : Type} [Zero α] (numPoints : ℕ) (sr : ℚ)
    (s : Spectrogram α) (fc : ℚ) :
    (∀ (b fr c : ℕ), nearest_bin fc numPoints sr ≤ (b : ℤ) →
        (lowpassStage numPoints sr s (some fc)).data b fr c = 0)
    ∧ (∀ (b fr c : ℕ), (b : ℤ) < nearest_bin fc numPoints sr →
        (lowpassStage numPoints sr s (some fc)).data b fr c = s.data b fr c)
    ∧ nearest_bin fc numPoints sr = round (fc * (numPoints : ℚ) / sr)
    ∧ lowpassStage numPoints sr s none = s := by
  refine ⟨?_, ?_, rfl, rfl⟩
  · intro b fr c hb
    simp [lowpassStage, hb]
  · intro b fr c hb
    simp [lowpassStage, not_le.2 hb]

/-- Witness for C8 with `num_points = 2048`, sample rate 44100 Hz and a
3500 Hz cutoff: the cutoff bin is `round(3500 * 2048 / 44100) = 163`, bin
163 is zeroed, bin 162 is untouched. -/
theorem lowpass_mask_spec_witness :
    nearest_bin 3500 2048 44100 = 163 ∧
      (lowpassStage 2048 44100 s5ex (some 3500)).data 163 0 0 = 0 ∧
      (lowpassStage 2048 44100 s5ex (some 3500)).data 162 0 0
        = s5ex.data 162 0 0 :=
  have hbin : nearest_bin 3500 2048 44100 = 163 := by
    rw [nearest_bin, round_eq]
    norm_num
  ⟨hbin,
    (lowpass_mask_spec 2048 44100 s5ex 3500).1 163 0 0 (by rw [hbin]; norm_num),
    (lowpass_mask_spec 2048 44100 s5ex 3500).2.1 162 0 0
      (by rw [hbin]; norm_num)⟩

/-- An `untwist` `Wave`: samples with shape `(num_samples, num_channels)`
(a list of sample frames, each a list of channel values) together with a
sample rate. -/
structure Wave where
  samples : List (List ℚ)
  sampleRate : ℚ

/-- `Wave.num_frames` in `untwist` counts samples. -/
def Wave.numFrames (w : Wave) : ℕ :=
  w.samples.length

/-- Channel count of a (rectangular) wave: length of its first sample
frame. -/
def numChannels (w : Wave) : ℕ :=
  (w.samples.headD []).length

/-- `wave[:n]` slicing. -/
def truncateWave (w : Wave) (n : ℕ) : Wave :=
  ⟨w.samples.take n, w.sampleRate⟩

/-- numpy `array * gain`. -/
def scaleWave (g : ℚ) (w : Wave) : Wave :=
  ⟨w.samples.map (fun row => row.map (fun x => x * g)), w.sampleRate⟩

/-- numpy broadcast of one axis: equal lengths pass through, a length of 1
stretches, anything else is a broadcasting error. -/
def bcastLen (a b : ℕ) : Option ℕ :=
  if a = b then some a
  else if a = 1 then some b
  else if b = 1 then some a
  else none

/-- Broadcast-aware sample lookup for an operand of an element-wise
operation. -/
def getSample (w : Wave) (i j : ℕ) : ℚ :=
  (w.samples.getD (if w.samples.length = 1 then 0 else i) []).getD
    (if numChannels w = 1 then 0 else j) 0

/-- numpy element-wise addition of two rectangular waves with standard
broadcasting on both axes.  `none` models the `ValueError` numpy raises
during the summation for incompatible shapes; the result keeps the left
operand's sample rate (as for an `untwist` ndarray subclass), and no
shape or sample-rate validation happens outside the broadcasting rule. -/
def waveAdd (x y : Wave) : Option Wave :=
  match bcastLen x.samples.length y.samples.length,
      bcastLen (numChannels x) (numChannels y) with
  | some n, some c =>
      some ⟨(List.range n).map (fun i =>
          (List.range c).map (fun j => getSample x i j + getSample y i j)),
        x.sampleRate⟩
  | _, _ => none

/-- The `others` argument of the anchor pipelines: a single buffer or a
list of buffers (src/ssanchors/utilities.py line 33). -/
inductive Others where
  | single : Wave → Others
  | many : List Wave → Others

/-- Python `sum(other for other in others)`: the sum starts at `0`, so it
folds from the first element; the empty list is an error (the source
indexes `others[0]` before summing, raising `IndexError`). -/
def sumWaves : List Wave → Option Wave
  | [] => none
  | w :: ws => ws.foldl (fun acc v => acc.bind (fun a => waveAdd a v)) (some w)

/-- Embedding of `ssanchors.utilities.target_accompaniment`
(src/ssanchors/utilities.py lines 33-50): a list of others is summed into
the accompaniment, a single object is the accompaniment itself; the target
is passed through unchanged.  No channel or sample-rate check is
performed. -/
def target_accompaniment (t : Wave) (o : Others) : Option (Wave × Wave) :=
  match o with
  | .many ws => (sumWaves ws).map (fun a => (t, a))
  | .single w => some (t, w)

/-- Spectrogram type produced by the external STFT: complex entries are
modelled as pairs of rationals. -/
abbrev CSpec := Spectrogram (ℚ × ℚ)

/-- External `untwist` services consumed by the pipelines, none of which
are part of this repository: the STFT/ISTFT processors (spec 4.1) and the
loudness meter together with the gain law of the loudness setter (spec 4.3:
`applyLoudness(buffer, target)` computes `gain = f(measure(buffer),
target)` and returns `buffer * gain`). -/
structure Externals where
  stft : Wave → CSpec
  istft : CSpec → Wave
  loud : Wave → ℚ
  gainFor : ℚ → ℚ → ℚ

/-- Modelled from the spec: `wave.loudness = L` rescales the buffer by the
gain the meter prescribes for reaching loudness `L`. -/
def setLoudness (E : Externals) (w : Wave) (L : ℚ) : Wave :=
  scaleWave (E.gainFor (E.loud w) L) w

/-- Embedding of `ssanchors.anchors.distorted_target`
(src/ssanchors/anchors.py lines 33-101): STFT, optional frame dropout
(sampled indices passed explicitly), optional lowpass mask, ISTFT,
truncation to the target's sample count, loudness match to the target. -/
def distorted_target (E : Externals) (t : Wave) (factor cutoff : Option ℚ)
    (numPoints : ℕ) (idx : List ℕ) : Option Wave :=
  (frameDropoutStage (E.stft t) factor idx).map (fun x1 =>
    setLoudness E
      (truncateWave (E.istft (lowpassStage numPoints t.sampleRate x1 cutoff))
        t.numFrames)
      (E.loud t))

/-- Embedding of `ssanchors.anchors.musical_noise`
(src/ssanchors/anchors.py lines 104-164): STFT, bin dropout on the
flattened volume, optional lowpass mask, ISTFT, truncation; the result is
returned at raw loudness. -/
def musical_noise (E : Externals) (t : Wave) (factor : ℚ)
    (cutoff : Option ℚ) (numPoints : ℕ) (idx : List ℕ) : Option Wave :=
  (binDropoutStage (E.stft t) factor idx).map (fun x1 =>
    truncateWave (E.istft (lowpassStage numPoints t.sampleRate x1 cutoff))
      t.numFrames)

/-- Embedding of `ssanchors.anchors.artefacts`
(src/ssanchors/anchors.py lines 167-215): musical noise loudness-matched to
the target, summed with the target, result re-set to the target's
loudness. -/
def artefacts (E : Externals) (t : Wave) (factor : ℚ) (cutoff : Option ℚ)
    (numPoints : ℕ) (idx : List ℕ) : Option Wave :=
  (musical_noise E t factor cutoff numPoints idx).bind (fun m =>
    (waveAdd (setLoudness E m (E.loud t)) t).map (fun s =>
      setLoudness E s (E.loud t)))

/-- The `if relative_loudness is not None` block of `interference`
(src/ssanchors/anchors.py lines 255-257): the accompaniment is re-set to
the target's loudness plus the offset, or left untouched for `None`. -/
def adjustLoudness (E : Externals) (target acc : Wave) : Option ℚ → Wave
  | some r => setLoudness E acc (E.loud target + r)
  | none => acc

/-- Embedding of `ssanchors.anchors.interference`
(src/ssanchors/anchors.py lines 218-262): accompaniment from
`target_accompaniment`, loudness offset applied only when
`relative_loudness is not None`, then target plus accompaniment with the
result re-set to the target's loudness. -/
def interference (E : Externals) (t : Wave) (o : Others) (rel : Option ℚ) :
    Option Wave :=
  (target_accompaniment t o).bind (fun p =>
    (waveAdd p.1 (adjustLoudness E p.1 p.2 rel)).map (fun s =>
      setLoudness E s (E.loud p.1)))

/-- Embedding of `ssanchors.anchors.overall_quality`
(src/ssanchors/anchors.py lines 265-350): distorted target, musical noise
and the accompaniment are each set to -23 LUFS (the accompaniment is then
re-set to `-23 + relative_loudness`, a second measured rescale as in the
source's two successive property assignments), summed left to right,
truncated to the target's sample count and re-set to the target's
loudness. -/
def overall_quality (E : Externals) (t0 : Wave) (o : Others)
    (dfT : Option ℚ) (dfN : ℚ) (lcT lcN : Option ℚ) (rel : ℚ)
    (numPoints : ℕ) (idxT idxN : List ℕ) : Option Wave :=
  (target_accompaniment t0 o).bind (fun p =>
    (distorted_target E p.1 dfT lcT numPoints idxT).bind (fun d =>
      (musical_noise E p.1 dfN lcN numPoints idxN).bind (fun m =>
        (waveAdd (setLoudness E d (-23)) (setLoudness E m (-23))).bind
          (fun s1 =>
            (waveAdd s1
                (setLoudness E (setLoudness E p.2 (-23)) (-23 + rel))).map
              (fun s2 =>
                setLoudness E (truncateWave s2 p.1.numFrames)
                  (E.loud p.1))))))

/-- Embedding of `ssanchors.anchors.target_sound_quality`
(src/ssanchors/anchors.py lines 353-423): distorted target and musical
noise each set to -23 LUFS, summed, truncated, re-set to the target's
loudness. -/
def target_sound_quality (E : Externals) (t : Wave) (dfT : Option ℚ)
    (dfN : ℚ) (lcT lcN : Option ℚ) (numPoints : ℕ) (idxT idxN : List ℕ) :
    Option Wave :=
  (distorted_target E t dfT lcT numPoints idxT).bind (fun d =>
    (musical_noise E t dfN lcN numPoints idxN).bind (fun m =>
      (waveAdd (setLoudness E d (-23)) (setLoudness E m (-23))).map (fun s =>
        setLoudness E (truncateWave s t.numFrames) (E.loud t))))

lemma scaleWave_len (g : ℚ) (w : Wave) :
    (scaleWave g w).samples.length = w.samples.length :=
  List.length_map _ _

lemma scaleWave_channels (g : ℚ) (w : Wave) :
    numChannels (scaleWave g w) = numChannels w := by
  unfold numChannels scaleWave
  cases w.samples with
  | nil => rfl
  | cons r rs => simp

lemma setLoudness_len (E : Externals) (w : Wave) (L : ℚ) :
    (setLoudness E w L).samples.length = w.samples.length :=
  scaleWave_len _ _

lemma setLoudness_channels (E : Externals) (w : Wave) (L : ℚ) :
    numChannels (setLoudness E w L) = numChannels w :=
  scaleWave_channels _ _

lemma truncateWave_len (w : Wave) (n : ℕ) :
    (truncateWave w n).samples.length = min n w.samples.length :=
  List.length_take _ _

lemma lowpassStage_numFrames {α : Type} [Zero α] (numPoints : ℕ) (sr : ℚ)
    (s : Spectrogram α) (cutoff : Option ℚ) :
    (lowpassStage numPoints sr s cutoff).numFrames = s.numFrames := by
  cases cutoff <;> rfl

lemma frameDropoutStage_numFrames {α : Type} [Zero α] {s s2 : Spectrogram α}
    {factor : Option ℚ} {idx : List ℕ}
    (h : frameDropoutStage s factor idx = some s2) :
    s2.numFrames = s.numFrames := by
  cases factor with
  | none =>
      rw [show frameDropoutStage s none idx = some s from rfl] at h
      cases h
      rfl
  | some f =>
      rw [frameDropoutStage] at h
      by_cases hc : 0 ≤ num_to_remove s.numFrames f ∧
          num_to_remove s.numFrames f ≤ (s.numFrames : ℤ)
      · rw [if_pos hc] at h
        cases h
        rfl
      · rw [if_neg hc] at h
        cases h

lemma binDropoutStage_numFrames {α : Type} [Zero α] {s s2 : Spectrogram α}
    {factor : ℚ} {idx : List ℕ}
    (h : binDropoutStage s factor idx = some s2) :
    s2.numFrames = s.numFrames := by
  rw [binDropoutStage] at h
  by_cases hc : 0 ≤ num_to_remove (size s) factor ∧
      num_to_remove (size s) factor ≤ (size s : ℤ)
  · rw [if_pos hc] at h
    cases h
    rfl
  · rw [if_neg hc] at h
    cases h

lemma waveAdd_len_eq {x y z : Wave} (hxy : y.samples.length = x.samples.length)
    (h : waveAdd x y = some z) : z.samples.length = x.samples.length := by
  rw [waveAdd] at h
  have hb : bcastLen x.samples.length y.samples.length
      = some x.samples.length := by
    rw [hxy, bcastLen, if_pos rfl]
  rw [hb] at h
  cases hc : bcastLen (numChannels x) (numChannels y) with
  | none =>
      rw [hc] at h
      cases h
  | some c =>
      rw [hc] at h
      cases h
      simp

lemma waveAdd_isSome_of_shape {x y : Wave}
    (h1 : y.samples.length = x.samples.length)
    (h2 : numChannels y = numChannels x) : (waveAdd x y).isSome = true := by
  rw [waveAdd]
  have hb : bcastLen x.samples.length y.samples.length
      = some x.samples.length := by
    rw [h1, bcastLen, if_pos rfl]
  have hc : bcastLen (numChannels x) (numChannels y)
      = some (numChannels x) := by
    rw [h2, bcastLen, if_pos rfl]
  rw [hb, hc]
  rfl

lemma waveAdd_none_of_channel_mismatch {x y : Wave}
    (h : numChannels x ≠ numChannels y) (hx : 2 ≤ numChannels x)
    (hy : 2 ≤ numChannels y) : waveAdd x y = none := by
  rw [waveAdd]
  have hc : bcastLen (numChannels x) (numChannels y) = none := by
    rw [bcastLen, if_neg h, if_neg (by omega), if_neg (by omega)]
  rw [hc]
  cases bcastLen x.samples.length y.samples.length <;> rfl

lemma target_accompaniment_fst {t : Wave} {o : Others} {p : Wave × Wave}
    (h : target_accompaniment t o = some p) : p.1 = t := by
  cases o with
  | single w =>
      rw [show target_accompaniment t (Others.single w) = some (t, w) from rfl]
        at h
      cases h
      rfl
  | many ws =>
      rw [target_accompaniment] at h
      cases hs : sumWaves ws with
      | none =>
          rw [hs] at h
          cases h
      | some a =>
          rw [hs] at h
          cases h
          rfl

/-- Claim C7: with `distortion_factor = None` and `lowpass_cutoff = None`,
`distorted_target` applies no spectral modification, so — given the
spec-modelled round-trip contract of the external transform (forward,
inverse, truncate to the original sample count reproduces the buffer, here
modelled exactly) — the anchor equals the loudness-adjusted original
target. -/
theorem distorted_target_noop (E : Externals) (t : Wave) (numPoints : ℕ)
    (idx : List ℕ)
    (hrecon : truncateWave (E.istft (E.stft t)) t.numFrames = t) :
    distorted_target E t none none numPoints idx
      = some (setLoudness E t (E.loud t)) := by
  have h1 : distorted_target E t none none numPoints idx
      = some (setLoudness E (truncateWave (E.istft (E.stft t)) t.numFrames)
          (E.loud t)) := rfl
  rw [h1, hrecon]

/-- Concrete external services for witnesses: the ISTFT returns a fixed
3-sample buffer whose 2-sample truncation is the witness target, the meter
reports -20 and the gain law is unity. -/
def exExternals : Externals :=
  ⟨fun w => ⟨1, w.samples.length, numChannels w, fun _ _ _ => (0, 0)⟩,
    fun _ => ⟨[[1], [2], [0]], 44100⟩,
    fun _ => -20,
    fun _ _ => 1⟩

/-- Concrete 2-sample mono target for witnesses. -/
def tEx : Wave := ⟨[[1], [2]], 44100⟩

/-- Witness for C7 at `tEx` with the concrete externals (the round-trip
hypothesis holds by computation). -/
theorem distorted_target_noop_witness :
    truncateWave (exExternals.istft (exExternals.stft tEx)) tEx.numFrames
        = tEx ∧
      distorted_target exExternals tEx none none 2048 []
        = some (setLoudness exExternals tEx (exExternals.loud tEx)) :=
  ⟨rfl, distorted_target_noop exExternals tEx 2048 [] rfl⟩

/-- Modelled from the claim: `interference` with the relative-loudness step
removed entirely — the anchor is the target plus the accompaniment at its
raw loudness, and only the final result is re-set to the target's
loudness. -/
def interference_raw_accompaniment (E : Externals) (t : Wave) (o : Others) :
    Option Wave :=
  match target_accompaniment t o with
  | none => none
  | some (target, acc) =>
      (waveAdd target acc).map (fun s => setLoudness E s (E.loud target))

/-- Claim C10: `relative_loudness = None` disables the relative-loudness
step rather than meaning a 0 dB offset: `interference` with `None` equals
the pipeline that sums the target with the raw, unadjusted accompaniment
and only re-sets the final sum to the target's loudness. -/
theorem interference_none_uses_raw_accompaniment (E : Externals) (t : Wave)
    (o : Others) :
    interference E t o none = interference_raw_accompaniment E t o := by
  unfold interference interference_raw_accompaniment
  cases target_accompaniment t o with
  | none => rfl
  | some p =>
      rcases p with ⟨tg, acc⟩
      rfl

lemma adjustLoudness_none (E : Externals) (target acc : Wave) :
    adjustLoudness E target acc none = acc := rfl

lemma adjustLoudness_some (E : Externals) (target acc : Wave) (r : ℚ) :
    adjustLoudness E target acc (some r) = setLoudness E acc (E.loud target + r)
    := rfl

/-- Accompaniment with the same shape as `tEx` but a different sample rate
(48 kHz against 44.1 kHz), for the C6 counterexample. -/
def accSRex : Wave := ⟨[[5], [6]], 48000⟩

/-- Counterexample to claim C6 as stated: a sample-rate mismatch between
target and accompaniment is never detected.  `interference` on a 44.1 kHz
target and a 48 kHz single other of the same shape succeeds (produces an
anchor) instead of failing before summation. -/
theorem interference_accepts_sample_rate_mismatch :
    tEx.sampleRate ≠ accSRex.sampleRate ∧
      (interference exExternals tEx (Others.single accSRex) (some 0)).isSome
        = true := by
  constructor
  · simp only [tEx, accSRex]
    norm_num
  · rfl

lemma some_bind_eq {α β : Type} (a : α) (f : α → Option β) :
    (some a).bind f = f a := rfl

lemma distorted_target_len {E : Externals} {t : Wave}
    {factor cutoff : Option ℚ} {numPoints : ℕ} {idx : List ℕ} {w : Wave}
    (hilen : ∀ s : CSpec, s.numFrames = (E.stft t).numFrames →
        t.numFrames ≤ (E.istft s).samples.length)
    (h : distorted_target E t factor cutoff numPoints idx = some w) :
    w.samples.length = t.numFrames := by
  rw [distorted_target, Option.map_eq_some'] at h
  obtain ⟨x1, hfd, hw⟩ := h
  subst hw
  rw [setLoudness_len, truncateWave_len]
  apply Nat.min_eq_left
  apply hilen
  rw [lowpassStage_numFrames]
  exact frameDropoutStage_numFrames hfd

lemma musical_noise_len {E : Externals} {t : Wave} {factor : ℚ}
    {cutoff : Option ℚ} {numPoints : ℕ} {idx : List ℕ} {w : Wave}
    (hilen : ∀ s : CSpec, s.numFrames = (E.stft t).numFrames →
        t.numFrames ≤ (E.istft s).samples.length)
    (h : musical_noise E t factor cutoff numPoints idx = some w) :
    w.samples.length = t.numFrames := by
  rw [musical_noise, Option.map_eq_some'] at h
  obtain ⟨x1, hbd, hw⟩ := h
  subst hw
  rw [truncateWave_len]
  apply Nat.min_eq_left
  apply hilen
  rw [lowpassStage_numFrames]
  exact binDropoutStage_numFrames hbd

lemma bcastLen_one_right (c : ℕ) : bcastLen c 1 = some c := by
  rw [bcastLen]
  by_cases h : c = 1
  · rw [if_pos h, h]
  · rw [if_neg h, if_neg h, if_pos rfl]

lemma truncateWave_channels (w : Wave) (n : ℕ) (hn : 0 < n) :
    numChannels (truncateWave w n) = numChannels w := by
  rw [truncateWave, numChannels, numChannels]
  cases w.samples with
  | nil => simp
  | cons a l =>
      obtain ⟨k, hk⟩ := Nat.exists_eq_succ_of_ne_zero (Nat.pos_iff_ne_zero.mp hn)
      subst hk
      simp

lemma numChannels_range_grid (L c : ℕ) (sr : ℚ) (g : ℕ → ℕ → ℚ)
    (hL : 0 < L) :
    numChannels ⟨(List.range L).map (fun i => (List.range c).map (g i)), sr⟩
      = c := by
  obtain ⟨k, hk⟩ := Nat.exists_eq_succ_of_ne_zero (Nat.pos_iff_ne_zero.mp hL)
  subst hk
  rw [numChannels, List.range_succ_eq_map, List.map_cons]
  simp

lemma waveAdd_some_of_shape {x y : Wave}
    (h1 : y.samples.length = x.samples.length)
    (h2 : numChannels y = numChannels x) (hx : 0 < x.samples.length) :
    ∃ z, waveAdd x y = some z ∧ z.samples.length = x.samples.length ∧
      numChannels z = numChannels x := by
  have hb : bcastLen x.samples.length y.samples.length
      = some x.samples.length := by
    rw [h1, bcastLen, if_pos rfl]
  have hc : bcastLen (numChannels x) (numChannels y)
      = some (numChannels x) := by
    rw [h2, bcastLen, if_pos rfl]
  rw [waveAdd, hb, hc]
  refine ⟨_, rfl, ?_, ?_⟩
  · simp
  · exact numChannels_range_grid _ _ _ _ hx

lemma num_to_remove_range {f : ℚ} (n : ℕ) (h0 : 0 ≤ f) (h1 : f < 1) :
    0 ≤ num_to_remove n f ∧ num_to_remove n f ≤ (n : ℤ) := by
  constructor
  · rw [num_to_remove, pyInt_of_nonneg (mul_nonneg (Nat.cast_nonneg _) h0)]
    exact Int.floor_nonneg.2 (mul_nonneg (Nat.cast_nonneg _) h0)
  · rw [num_to_remove, pyInt_of_nonneg (mul_nonneg (Nat.cast_nonneg _) h0)]
    have hle : (n : ℚ) * f ≤ (n : ℚ) := by
      calc (n : ℚ) * f ≤ (n : ℚ) * 1 :=
            mul_le_mul_of_nonneg_left h1.le (Nat.cast_nonneg _)
        _ = (n : ℚ) := mul_one _
    calc ⌊(n : ℚ) * f⌋ ≤ ⌊(n : ℚ)⌋ := Int.floor_le_floor hle
      _ = (n : ℤ) := Int.floor_natCast _

lemma frameDropoutStage_some_of_unit {α : Type} [Zero α]
    (s : Spectrogram α) (f : ℚ) (idx : List ℕ) (h0 : 0 ≤ f) (h1 : f < 1) :
    frameDropoutStage s (some f) idx = some (zeroFrames s idx) := by
  rw [frameDropoutStage]
  exact if_pos (num_to_remove_range _ h0 h1)

lemma binDropoutStage_some_of_unit {α : Type} [Zero α]
    (s : Spectrogram α) (f : ℚ) (idx : List ℕ) (h0 : 0 ≤ f) (h1 : f < 1) :
    binDropoutStage s f idx
      = some (zeroCells s (idx.map (unravelIndex s))) := by
  rw [binDropoutStage]
  exact if_pos (num_to_remove_range _ h0 h1)

lemma distorted_target_total {E : Externals} {t : Wave} {dfT : Option ℚ}
    {cutoff : Option ℚ} {numPoints : ℕ} {idx : List ℕ}
    (hdfT : ∀ f, dfT = some f → 0 ≤ f ∧ f < 1) :
    ∃ d, distorted_target E t dfT cutoff numPoints idx = some d := by
  cases dfT with
  | none => exact ⟨_, rfl⟩
  | some f =>
      obtain ⟨h0, h1⟩ := hdfT f rfl
      rw [distorted_target, frameDropoutStage_some_of_unit _ _ _ h0 h1]
      exact ⟨_, rfl⟩

lemma musical_noise_total {E : Externals} {t : Wave} {dfN : ℚ}
    {cutoff : Option ℚ} {numPoints : ℕ} {idx : List ℕ}
    (h0 : 0 ≤ dfN) (h1 : dfN < 1) :
    ∃ m, musical_noise E t dfN cutoff numPoints idx = some m := by
  rw [musical_noise, binDropoutStage_some_of_unit _ _ _ h0 h1]
  exact ⟨_, rfl⟩

lemma distorted_target_channels {E : Externals} {t : Wave}
    {dfT cutoff : Option ℚ} {numPoints : ℕ} {idx : List ℕ} {w : Wave}
    (hchan : ∀ s : CSpec, numChannels (E.istft s) = numChannels t)
    (ht : 0 < t.samples.length)
    (h : distorted_target E t dfT cutoff numPoints idx = some w) :
    numChannels w = numChannels t := by
  rw [distorted_target, Option.map_eq_some'] at h
  obtain ⟨x1, _, hw⟩ := h
  subst hw
  rw [setLoudness_channels, truncateWave_channels _ t.numFrames ht, hchan]

lemma musical_noise_channels {E : Externals} {t : Wave} {dfN : ℚ}
    {cutoff : Option ℚ} {numPoints : ℕ} {idx : List ℕ} {w : Wave}
    (hchan : ∀ s : CSpec, numChannels (E.istft s) = numChannels t)
    (ht : 0 < t.samples.length)
    (h : musical_noise E t dfN cutoff numPoints idx = some w) :
    numChannels w = numChannels t := by
  rw [musical_noise, Option.map_eq_some'] at h
  obtain ⟨x1, _, hw⟩ := h
  subst hw
  rw [truncateWave_channels _ t.numFrames ht, hchan]

/-- Claim C6 (amended): no shape or sample-rate check exists before
summation, in `target_accompaniment` (which aliases a single other, or a
one-element list, straight through, whatever its shape or rate), in
`interference`, or in `overall_quality`.  With matching shapes either
pipeline succeeds whatever the sample rates are (a sample-rate mismatch is
silently ignored); a 1-channel accompaniment broadcasts silently against
any target; and a channel-count mismatch with both counts ≥ 2 makes the
summation itself fail — numpy's broadcasting error, not a pre-summation
check — after which the call produces no output at all (no partial
result).  The `istft` channel contract `hchan` is spec-modelled (spec 3:
buffers and spectrograms carry the same channel count). -/
theorem no_mismatch_check_before_summation (E : Externals) (t : Wave)
    (o : Others)
    (hilen : ∀ s : CSpec, s.numFrames = (E.stft t).numFrames →
        t.numFrames ≤ (E.istft s).samples.length)
    (hchan : ∀ s : CSpec, numChannels (E.istft s) = numChannels t)
    (ht : 0 < t.samples.length) :
    (∀ u : Wave, target_accompaniment t (Others.single u) = some (t, u))
    ∧ (∀ u : Wave, target_accompaniment t (Others.many [u]) = some (t, u))
    ∧ (∀ (p : Wave × Wave) (rel : Option ℚ),
        target_accompaniment t o = some p →
        p.2.samples.length = t.samples.length →
        numChannels p.2 = numChannels t →
        (interference E t o rel).isSome = true)
    ∧ (∀ (p : Wave × Wave) (rel : Option ℚ),
        target_accompaniment t o = some p →
        p.2.samples.length = t.samples.length → numChannels p.2 = 1 →
        (interference E t o rel).isSome = true)
    ∧ (∀ (p : Wave × Wave) (rel : Option ℚ),
        target_accompaniment t o = some p →
        p.2.samples.length = t.samples.length → 2 ≤ numChannels p.2 →
        2 ≤ numChannels t → numChannels p.2 ≠ numChannels t →
        interference E t o rel = none)
    ∧ (∀ (p : Wave × Wave) (dfT : Option ℚ) (dfN : ℚ)
        (lcT lcN : Option ℚ) (rel : ℚ) (numPoints : ℕ)
        (idxT idxN : List ℕ),
        target_accompaniment t o = some p →
        (∀ f, dfT = some f → 0 ≤ f ∧ f < 1) → 0 ≤ dfN → dfN < 1 →
        p.2.samples.length = t.samples.length →
        numChannels p.2 = numChannels t →
        (overall_quality E t o dfT dfN lcT lcN rel numPoints idxT
            idxN).isSome = true)
    ∧ (∀ (p : Wave × Wave) (dfT : Option ℚ) (dfN : ℚ)
        (lcT lcN : Option ℚ) (rel : ℚ) (numPoints : ℕ)
        (idxT idxN : List ℕ),
        target_accompaniment t o = some p →
        (∀ f, dfT = some f → 0 ≤ f ∧ f < 1) → 0 ≤ dfN → dfN < 1 →
        p.2.samples.length = t.samples.length → 2 ≤ numChannels p.2 →
        2 ≤ numChannels t → numChannels p.2 ≠ numChannels t →
        overall_quality E t o dfT dfN lcT lcN rel numPoints idxT idxN
          = none) := by
  have hadj_len : ∀ (u : Wave) (rel : Option ℚ),
      u.samples.length = t.samples.length →
      (adjustLoudness E t u rel).samples.length = t.samples.length := by
    intro u rel hu
    cases rel with
    | none => rw [adjustLoudness_none, hu]
    | some r => rw [adjustLoudness_some, setLoudness_len, hu]
  have hadj_ch : ∀ (u : Wave) (rel : Option ℚ),
      numChannels (adjustLoudness E t u rel) = numChannels u := by
    intro u rel
    cases rel with
    | none => rw [adjustLoudness_none]
    | some r => rw [adjustLoudness_some, setLoudness_channels]
  refine ⟨fun u => rfl, fun u => rfl, ?_, ?_, ?_, ?_, ?_⟩
  · intro p rel hta hlen hch
    have hp1 : p.1 = t := target_accompaniment_fst hta
    have hint : interference E t o rel =
        (waveAdd p.1 (adjustLoudness E p.1 p.2 rel)).map
          (fun s => setLoudness E s (E.loud p.1)) := by
      rw [interference, hta, some_bind_eq]
    rw [hp1] at hint
    rw [hint]
    have hs := waveAdd_isSome_of_shape (x := t)
      (hadj_len p.2 rel hlen) (by rw [hadj_ch, hch])
    obtain ⟨z, hz⟩ := Option.isSome_iff_exists.1 hs
    rw [hz]
    rfl
  · intro p rel hta hlen hch1
    have hp1 : p.1 = t := target_accompaniment_fst hta
    have hint : interference E t o rel =
        (waveAdd p.1 (adjustLoudness E p.1 p.2 rel)).map
          (fun s => setLoudness E s (E.loud p.1)) := by
      rw [interference, hta, some_bind_eq]
    rw [hp1] at hint
    have hb : bcastLen t.samples.length
        (adjustLoudness E t p.2 rel).samples.length
        = some t.samples.length := by
      rw [hadj_len p.2 rel hlen, bcastLen, if_pos rfl]
    have hc : bcastLen (numChannels t)
        (numChannels (adjustLoudness E t p.2 rel))
        = some (numChannels t) := by
      rw [hadj_ch, hch1]
      exact bcastLen_one_right _
    rw [hint, waveAdd, hb, hc]
    rfl
  · intro p rel hta _ h2v h2t hne
    have hp1 : p.1 = t := target_accompaniment_fst hta
    have hint : interference E t o rel =
        (waveAdd p.1 (adjustLoudness E p.1 p.2 rel)).map
          (fun s => setLoudness E s (E.loud p.1)) := by
      rw [interference, hta, some_bind_eq]
    rw [hp1] at hint
    rw [hint, waveAdd_none_of_channel_mismatch (x := t)
      (y := adjustLoudness E t p.2 rel)
      (by rw [hadj_ch]; exact Ne.symm hne) h2t
      (by rw [hadj_ch]; exact h2v)]
    rfl
  · intro p dfT dfN lcT lcN rel numPoints idxT idxN hta hdfT h0 h1 hlen hch
    have hp1 : p.1 = t := target_accompaniment_fst hta
    have hoq : overall_quality E t o dfT dfN lcT lcN rel numPoints idxT idxN
        = (distorted_target E p.1 dfT lcT numPoints idxT).bind (fun d =>
            (musical_noise E p.1 dfN lcN numPoints idxN).bind (fun m =>
              (waveAdd (setLoudness E d (-23)) (setLoudness E m (-23))).bind
                (fun s1 =>
                  (waveAdd s1 (setLoudness E (setLoudness E p.2 (-23))
                      (-23 + rel))).map (fun s2 =>
                    setLoudness E (truncateWave s2 p.1.numFrames)
                      (E.loud p.1))))) := by
      rw [overall_quality, hta, some_bind_eq]
    rw [hp1] at hoq
    obtain ⟨d, hd⟩ := @distorted_target_total E t dfT lcT numPoints idxT hdfT
    obtain ⟨m, hm⟩ := @musical_noise_total E t dfN lcN numPoints idxN h0 h1
    rw [hd, some_bind_eq, hm, some_bind_eq] at hoq
    have hdlen : d.samples.length = t.numFrames :=
      distorted_target_len hilen hd
    have hmlen : m.samples.length = t.numFrames :=
      musical_noise_len hilen hm
    have hdch : numChannels d = numChannels t :=
      distorted_target_channels hchan ht hd
    have hmch : numChannels m = numChannels t :=
      musical_noise_channels hchan ht hm
    obtain ⟨s1, hs1, hs1len, hs1ch⟩ := waveAdd_some_of_shape
      (x := setLoudness E d (-23)) (y := setLoudness E m (-23))
      (by rw [setLoudness_len, setLoudness_len, hdlen, hmlen])
      (by rw [setLoudness_channels, setLoudness_channels, hdch, hmch])
      (by rw [setLoudness_len, hdlen]; exact ht)
    rw [hs1, some_bind_eq] at hoq
    obtain ⟨s2, hs2, _, _⟩ := waveAdd_some_of_shape (x := s1)
      (y := setLoudness E (setLoudness E p.2 (-23)) (-23 + rel))
      (by rw [setLoudness_len, setLoudness_len, hlen, hs1len,
        setLoudness_len, hdlen]; rfl)
      (by rw [setLoudness_channels, setLoudness_channels, hch, hs1ch,
        setLoudness_channels, hdch])
      (by rw [hs1len, setLoudness_len, hdlen]; exact ht)
    rw [hs2] at hoq
    rw [hoq]
    rfl
  · intro p dfT dfN lcT lcN rel numPoints idxT idxN hta hdfT h0 h1 hlen h2v
      h2t hne
    have hp1 : p.1 = t := target_accompaniment_fst hta
    have hoq : overall_quality E t o dfT dfN lcT lcN rel numPoints idxT idxN
        = (distorted_target E p.1 dfT lcT numPoints idxT).bind (fun d =>
            (musical_noise E p.1 dfN lcN numPoints idxN).bind (fun m =>
              (waveAdd (setLoudness E d (-23)) (setLoudness E m (-23))).bind
                (fun s1 =>
                  (waveAdd s1 (setLoudness E (setLoudness E p.2 (-23))
                      (-23 + rel))).map (fun s2 =>
                    setLoudness E (truncateWave s2 p.1.numFrames)
                      (E.loud p.1))))) := by
      rw [overall_quality, hta, some_bind_eq]
    rw [hp1] at hoq
    obtain ⟨d, hd⟩ := @distorted_target_total E t dfT lcT numPoints idxT hdfT
    obtain ⟨m, hm⟩ := @musical_noise_total E t dfN lcN numPoints idxN h0 h1
    rw [hd, some_bind_eq, hm, some_bind_eq] at hoq
    have hdlen : d.samples.length = t.numFrames :=
      distorted_target_len hilen hd
    have hmlen : m.samples.length = t.numFrames :=
      musical_noise_len hilen hm
    have hdch : numChannels d = numChannels t :=
      distorted_target_channels hchan ht hd
    have hmch : numChannels m = numChannels t :=
      musical_noise_channels hchan ht hm
    obtain ⟨s1, hs1, hs1len, hs1ch⟩ := waveAdd_some_of_shape
      (x := setLoudness E d (-23)) (y := setLoudness E m (-23))
      (by rw [setLoudness_len, setLoudness_len, hdlen, hmlen])
      (by rw [setLoudness_channels, setLoudness_channels, hdch, hmch])
      (by rw [setLoudness_len, hdlen]; exact ht)
    rw [hs1, some_bind_eq] at hoq
    have hmis : waveAdd s1
        (setLoudness E (setLoudness E p.2 (-23)) (-23 + rel)) = none :=
      waveAdd_none_of_channel_mismatch
        (by rw [hs1ch, setLoudness_channels, hdch, setLoudness_channels,
          setLoudness_channels]; exact Ne.symm hne)
        (by rw [hs1ch, setLoudness_channels, hdch]; exact h2t)
        (by rw [setLoudness_channels, setLoudness_channels]; exact h2v)
    rw [hmis] at hoq
    rw [hoq]
    rfl

/-- Stereo 2-sample target for the C6 witness. -/
def tSt : Wave := ⟨[[1, 2], [3, 4]], 44100⟩

/-- Stereo 2-sample other with a mismatching 48 kHz sample rate. -/
def wSt : Wave := ⟨[[5, 6], [7, 8]], 48000⟩

/-- 3-channel 2-sample other, channel-incompatible with the stereo
target. -/
def vSt : Wave := ⟨[[1, 2, 3], [4, 5, 6]], 44100⟩

/-- Stereo variant of the concrete external services: the ISTFT returns a
fixed 3-sample stereo buffer, matching the stereo witness target. -/
def exExternalsSt : Externals :=
  ⟨fun w => ⟨1, w.samples.length, numChannels w, fun _ _ _ => (0, 0)⟩,
    fun _ => ⟨[[0, 0], [0, 0], [0, 0]], 44100⟩,
    fun _ => -20,
    fun _ _ => 1⟩

/-- Witness for C6 (amended) at a stereo target: the shape-matched call
with mismatched sample rates succeeds for both `interference` and
`overall_quality`, and the 3-channel-vs-stereo call makes both fail inside
the summation. -/
theorem no_mismatch_check_before_summation_witness :
    0 < tSt.samples.length ∧
      target_accompaniment tSt (Others.single wSt) = some (tSt, wSt) ∧
      (interference exExternalsSt tSt (Others.single wSt) (some 0)).isSome
        = true ∧
      (overall_quality exExternalsSt tSt (Others.single wSt) none (1/2)
          none none 0 2048 [] []).isSome = true ∧
      interference exExternalsSt tSt (Others.single vSt) (some 0) = none ∧
      overall_quality exExternalsSt tSt (Others.single vSt) none (1/2)
        none none 0 2048 [] [] = none := by
  have hilen : ∀ s : CSpec,
      s.numFrames = (exExternalsSt.stft tSt).numFrames →
      tSt.numFrames ≤ (exExternalsSt.istft s).samples.length := fun s _ => by
    show (2 : ℕ) ≤ 3
    decide
  have hchan : ∀ s : CSpec,
      numChannels (exExternalsSt.istft s) = numChannels tSt := fun s => by
    show (2 : ℕ) = 2
    rfl
  have ht : 0 < tSt.samples.length := by decide
  have hW := no_mismatch_check_before_summation exExternalsSt tSt
    (Others.single wSt) hilen hchan ht
  have hV := no_mismatch_check_before_summation exExternalsSt tSt
    (Others.single vSt) hilen hchan ht
  refine ⟨ht, hW.1 wSt, ?_, ?_, ?_, ?_⟩
  · exact hW.2.2.1 (tSt, wSt) (some 0) rfl (by decide) (by decide)
  · exact hW.2.2.2.2.2.1 (tSt, wSt) none (1/2) none none 0 2048 [] [] rfl
      (fun f hf => Option.noConfusion hf) (by norm_num) (by norm_num)
      (by decide) (by decide)
  · exact hV.2.2.2.2.1 (tSt, vSt) (some 0) rfl (by decide) (by decide)
      (by decide) (by decide)
  · exact hV.2.2.2.2.2.2 (tSt, vSt) none (1/2) none none 0 2048 [] [] rfl
      (fun f hf => Option.noConfusion hf) (by norm_num) (by norm_num)
      (by decide) (by decide) (by decide) (by decide)

lemma artefacts_len {E : Externals} {t : Wave} {factor : ℚ}
    {cutoff : Option ℚ} {numPoints : ℕ} {idx : List ℕ} {w : Wave}
    (hilen : ∀ s : CSpec, s.numFrames = (E.stft t).numFrames →
        t.numFrames ≤ (E.istft s).samples.length)
    (h : artefacts E t factor cutoff numPoints idx = some w) :
    w.samples.length = t.numFrames := by
  rw [artefacts, Option.bind_eq_some] at h
  obtain ⟨m, hm, h⟩ := h
  rw [Option.map_eq_some'] at h
  obtain ⟨s, ha, hw⟩ := h
  subst hw
  have hmlen : m.samples.length = t.numFrames := musical_noise_len hilen hm
  have hyx : t.samples.length
      = (setLoudness E m (E.loud t)).samples.length := by
    rw [setLoudness_len, hmlen]
    rfl
  rw [setLoudness_len, waveAdd_len_eq hyx ha, setLoudness_len, hmlen]

lemma interference_len {E : Externals} {t : Wave} {o : Others}
    {rel : Option ℚ} {w : Wave}
    (hacc : ∀ p : Wave × Wave, target_accompaniment t o = some p →
        p.2.samples.length = t.samples.length)
    (h : interference E t o rel = some w) :
    w.samples.length = t.numFrames := by
  rw [interference, Option.bind_eq_some] at h
  obtain ⟨p, hta, h⟩ := h
  have hp1 : p.1 = t := target_accompaniment_fst hta
  rw [Option.map_eq_some'] at h
  obtain ⟨s, ha, hw⟩ := h
  subst hw
  have hlenp : (adjustLoudness E p.1 p.2 rel).samples.length
      = p.1.samples.length := by
    cases rel with
    | none => rw [adjustLoudness_none, hacc p hta, hp1]
    | some r =>
        rw [adjustLoudness_some, setLoudness_len, hacc p hta, hp1]
  rw [setLoudness_len, waveAdd_len_eq hlenp ha, hp1]
  rfl

lemma overall_quality_len {E : Externals} {t : Wave} {o : Others}
    {dfT : Option ℚ} {dfN : ℚ} {lcT lcN : Option ℚ} {rel : ℚ}
    {numPoints : ℕ} {idxT idxN : List ℕ} {w : Wave}
    (hilen : ∀ s : CSpec, s.numFrames = (E.stft t).numFrames →
        t.numFrames ≤ (E.istft s).samples.length)
    (hacc : ∀ p : Wave × Wave, target_accompaniment t o = some p →
        p.2.samples.length = t.samples.length)
    (h : overall_quality E t o dfT dfN lcT lcN rel numPoints idxT idxN
        = some w) :
    w.samples.length = t.numFrames := by
  rw [overall_quality, Option.bind_eq_some] at h
  obtain ⟨p, hta, h⟩ := h
  have hp1 : p.1 = t := target_accompaniment_fst hta
  rw [Option.bind_eq_some] at h
  obtain ⟨d, hd, h⟩ := h
  rw [Option.bind_eq_some] at h
  obtain ⟨m, hm, h⟩ := h
  rw [Option.bind_eq_some] at h
  obtain ⟨s1, h1, h⟩ := h
  rw [Option.map_eq_some'] at h
  obtain ⟨s2, h2, hw⟩ := h
  subst hw
  rw [hp1] at hd hm
  have hdlen : d.samples.length = t.numFrames :=
    distorted_target_len hilen hd
  have hmlen : m.samples.length = t.numFrames :=
    musical_noise_len hilen hm
  have hyx1 : (setLoudness E m (-23)).samples.length
      = (setLoudness E d (-23)).samples.length := by
    rw [setLoudness_len, setLoudness_len, hdlen, hmlen]
  have hs1 : s1.samples.length = t.numFrames := by
    rw [waveAdd_len_eq hyx1 h1, setLoudness_len, hdlen]
  have hlacc : p.2.samples.length = t.samples.length := hacc p hta
  have hyx2 : (setLoudness E (setLoudness E p.2 (-23))
        (-23 + rel)).samples.length = s1.samples.length := by
    rw [setLoudness_len, setLoudness_len, hlacc, hs1]
    rfl
  rw [setLoudness_len, truncateWave_len, waveAdd_len_eq hyx2 h2, hs1, hp1]
  exact Nat.min_self _

lemma target_sound_quality_len {E : Externals} {t : Wave}
    {dfT : Option ℚ} {dfN : ℚ} {lcT lcN : Option ℚ} {numPoints : ℕ}
    {idxT idxN : List ℕ} {w : Wave}
    (hilen : ∀ s : CSpec, s.numFrames = (E.stft t).numFrames →
        t.numFrames ≤ (E.istft s).samples.length)
    (h : target_sound_quality E t dfT dfN lcT lcN numPoints idxT idxN
        = some w) :
    w.samples.length = t.numFrames := by
  rw [target_sound_quality, Option.bind_eq_some] at h
  obtain ⟨d, hd, h⟩ := h
  rw [Option.bind_eq_some] at h
  obtain ⟨m, hm, h⟩ := h
  rw [Option.map_eq_some'] at h
  obtain ⟨s, h1, hw⟩ := h
  subst hw
  have hdlen : d.samples.length = t.numFrames :=
    distorted_target_len hilen hd
  have hmlen : m.samples.length = t.numFrames :=
    musical_noise_len hilen hm
  have hyx : (setLoudness E m (-23)).samples.length
      = (setLoudness E d (-23)).samples.length := by
    rw [setLoudness_len, setLoudness_len, hdlen, hmlen]
  rw [setLoudness_len, truncateWave_len, waveAdd_len_eq hyx h1,
    setLoudness_len, hdlen]
  exact Nat.min_self _

/-- Claim C9: whenever one of the five anchor pipelines returns an anchor,
that anchor has exactly the target's original sample count.  The external
inverse transform may return a longer buffer (spec-modelled contract
`hilen`, derived from spec 4.1's frame padding); each pipeline truncates to
`target.num_frames` (or, for `interference`, sums equal-length buffers), so
the output length is the target's. -/
theorem anchors_truncated_to_target_length (E : Externals) (t : Wave)
    (o : Others)
    (hilen : ∀ s : CSpec, s.numFrames = (E.stft t).numFrames →
        t.numFrames ≤ (E.istft s).samples.length)
    (hacc : ∀ p : Wave × Wave, target_accompaniment t o = some p →
        p.2.samples.length = t.samples.length) :
    (∀ factor cutoff numPoints idx w,
        distorted_target E t factor cutoff numPoints idx = some w →
          w.samples.length = t.numFrames)
    ∧ (∀ factor cutoff numPoints idx w,
        artefacts E t factor cutoff numPoints idx = some w →
          w.samples.length = t.numFrames)
    ∧ (∀ rel w, interference E t o rel = some w →
        w.samples.length = t.numFrames)
    ∧ (∀ dfT dfN lcT lcN rel numPoints idxT idxN w,
        overall_quality E t o dfT dfN lcT lcN rel numPoints idxT idxN
            = some w →
          w.samples.length = t.numFrames)
    ∧ (∀ dfT dfN lcT lcN numPoints idxT idxN w,
        target_sound_quality E t dfT dfN lcT lcN numPoints idxT idxN
            = some w →
          w.samples.length = t.numFrames) :=
  ⟨fun _ _ _ _ _ h => distorted_target_len hilen h,
    fun _ _ _ _ _ h => artefacts_len hilen h,
    fun _ _ h => interference_len hacc h,
    fun _ _ _ _ _ _ _ _ _ h => overall_quality_len hilen hacc h,
    fun _ _ _ _ _ _ _ _ h => target_sound_quality_len hilen h⟩

/-- Witness for C9 at the concrete externals and target: the fixed ISTFT
output (3 samples) is at least as long as the 2-sample target, and the
single accompaniment has the target's sample count. -/
theorem anchors_truncated_to_target_length_witness :
    (∀ s : CSpec, s.numFrames = (exExternals.stft tEx).numFrames →
        tEx.numFrames ≤ (exExternals.istft s).samples.length) ∧
      (∀ p : Wave × Wave,
        target_accompaniment tEx (Others.single accSRex) = some p →
          p.2.samples.length = tEx.samples.length) ∧
      ((∀ factor cutoff numPoints idx w,
          distorted_target exExternals tEx factor cutoff numPoints idx
              = some w →
            w.samples.length = tEx.numFrames)
        ∧ (∀ factor cutoff numPoints idx w,
            artefacts exExternals tEx factor cutoff numPoints idx = some w →
              w.samples.length = tEx.numFrames)
        ∧ (∀ rel w,
            interference exExternals tEx (Others.single accSRex) rel
                = some w →
              w.samples.length = tEx.numFrames)
        ∧ (∀ dfT dfN lcT lcN rel numPoints idxT idxN w,
            overall_quality exExternals tEx (Others.single accSRex) dfT dfN
                lcT lcN rel numPoints idxT idxN = some w →
              w.samples.length = tEx.numFrames)
        ∧ (∀ dfT dfN lcT lcN numPoints idxT idxN w,
            target_sound_quality exExternals tEx dfT dfN lcT lcN numPoints
                idxT idxN = some w →
              w.samples.length = tEx.numFrames)) :=
  ⟨fun s _ => by
      show (2 : ℕ) ≤ 3
      decide,
    fun p h => by
      cases h
      rfl,
    anchors_truncated_to_target_length exExternals tEx (Others.single accSRex)
      (fun s _ => by
        show (2 : ℕ) ≤ 3
        decide)
      (fun p h => by
        cases h
        rfl)⟩

end SSAnchors
